import Mathlib

/-!
Verification of the data_agent frontend service layer.

Shallow embedding of the JavaScript sources:
- `ChatService` (src/frontend/src/services/chatService.js)
- `createApiClient` (src/frontend/src/services/api.js)
- `SessionService` (src/frontend/src/services/sessionService.js)
- `createApiUrl` (src/frontend/src/services/apiUtils.js)
- `PieChart` / `BarChart` (src/frontend/src/components/charts)
- the backend correlation analysis (modelled from the spec; the Python
  backend is not part of the frontend sources)

JavaScript strings are embedded as Lean `String`s; numeric chart data as `ℚ`
(the charts only add, divide and compare values); the Pearson correlation as
`ℝ` (it needs a square root).  JavaScript truthiness of a string (`s || d`)
is embedded as "empty string falls back to the default".
-/

set_option autoImplicit false

namespace DataAgent

/-- JavaScript `a || b` on strings: the empty string is falsy. -/
def jsOr (a b : String) : String :=
  if a = "" then b else a

/-- JavaScript `a || b` where `a` may be absent (`undefined`/`null`). -/
def jsOrOpt (a : Option String) (b : String) : String :=
  match a with
  | some s => jsOr s b
  | none => b

/-! ## ChatService (src/frontend/src/services/chatService.js)

A history entry pushed by `sendMessage` / the catch branch.  The source
attaches an ISO timestamp from `new Date()`; the clock is passed in as the
`now` argument. -/

structure Message where
  content : String
  sender : String
  timestamp : String
  visualization : Option String := none
  visualizationCode : Option String := none
  isError : Bool := false
  deriving Repr, DecidableEq

/-- The JSON body a successful chat request resolves to.  `response` and
`message` model the (possibly absent) `response.response` / `response.message`
fields; `raw` models the fallback where the whole response is used as the
content (`response.response || response.message || response`). -/
structure ApiResponse where
  response : Option String
  message : Option String
  raw : String
  visualization : Option String := none
  visualizationCode : Option String := none
  deriving Repr, DecidableEq

/-- Outcome of the awaited `this.api(...)` call inside `sendMessage`:
either it throws (`Except.error` carries `error.message`) or it resolves.
`Option.none` models a falsy resolved value (e.g. an empty text body), for
which the `if (response)` guard skips the assistant push. -/
abbrev ChatOutcome := Except String (Option ApiResponse)

/-- Mutable state of a `ChatService` instance. -/
structure ChatState where
  sessionId : String
  messageHistory : List Message
  deriving Repr, DecidableEq

/-- The user turn pushed at the top of `sendMessage`. -/
def userMsg (query now : String) : Message :=
  { content := query, sender := "user", timestamp := now }

/-- The assistant turn pushed when the response is truthy. -/
def assistantMsg (resp : ApiResponse) (now : String) : Message :=
  { content := jsOrOpt resp.response (jsOrOpt resp.message resp.raw)
    sender := "assistant"
    timestamp := now
    visualization := resp.visualization
    visualizationCode := resp.visualizationCode }

/-- The system turn pushed by the catch branch of `sendMessage`. -/
def errorMsg (e now : String) : Message :=
  { content := "Error: " ++ e, sender := "system", timestamp := now, isError := true }

/-- The turns one `sendMessage` call appends: always the user turn, then the
assistant turn on a truthy response, or the error turn on a thrown error. -/
def sentTurns (query now : String) (outcome : ChatOutcome) : List Message :=
  userMsg query now ::
    match outcome with
    | Except.ok (some resp) => [assistantMsg resp now]
    | Except.ok none => []
    | Except.error e => [errorMsg e now]

/-- `ChatService.sendMessage(query)`.  The network effect is the `outcome`
argument; the call returns the updated state together with what the promise
does: resolve with the response (`Except.ok`) or reject (`Except.error`,
from the `throw error` at the end of the catch branch). -/
def sendMessage (s : ChatState) (query now : String) (outcome : ChatOutcome) :
    ChatState × ChatOutcome :=
  ({ s with messageHistory := s.messageHistory ++ sentTurns query now outcome }, outcome)

/-- `ChatService.getMessageHistory()` (the value it returns; the fresh-copy
aliasing behaviour is modelled separately on the heap model below). -/
def getMessageHistory (s : ChatState) : List Message :=
  s.messageHistory

/-- `ChatService.clearMessageHistory()`. -/
def clearMessageHistory (s : ChatState) : ChatState :=
  { s with messageHistory := [] }

/-! ## createApiClient (src/frontend/src/services/api.js)

The returned fetch wrapper performs exactly one `fetch` and processes its
response.  The network is modelled by a sequence `fetchSeq : Nat → FetchResult`
giving the outcome the n-th attempt of the request would have; the source
consults only attempt 0. -/

/-- A JSON response body: the optional `message` / `detail` fields the error
path reads, and the payload returned on success. -/
structure JsonBody where
  message : Option String
  detail : Option String
  payload : String
  deriving Repr, DecidableEq

/-- A resolved `fetch` response, as far as the client inspects it:
`ok`, whether the content type is JSON, and the body both ways. -/
structure HttpResponse where
  ok : Bool
  isJson : Bool
  json : JsonBody
  text : String
  deriving Repr, DecidableEq

/-- Outcome of one `fetch` attempt: the promise rejects (network error) or
resolves to a response. -/
inductive FetchResult where
  | netError (msg : String)
  | resolved (r : HttpResponse)
  deriving Repr, DecidableEq

/-- What the client returns on success: parsed JSON or the text body. -/
inductive ClientValue where
  | json (body : JsonBody)
  | text (s : String)
  deriving Repr, DecidableEq

/-- Response processing of `createApiClient`: JSON content is parsed and, when
`!response.ok`, `data.message || data.detail || 'API request failed'` is
thrown; otherwise the text body is returned, or thrown when `!response.ok`. -/
def processResponse (r : HttpResponse) : Except String ClientValue :=
  if r.isJson then
    if r.ok then Except.ok (ClientValue.json r.json)
    else Except.error (jsOrOpt r.json.message (jsOrOpt r.json.detail "API request failed"))
  else
    if r.ok then Except.ok (ClientValue.text r.text)
    else Except.error (jsOr r.text "API request failed")

/-- One call of the function returned by `createApiClient`: a single `fetch`
(attempt 0 of `fetchSeq`); a rejected fetch is rethrown by the catch block,
a resolved response is processed.  No retry loop exists in the source. -/
def apiClientCall (fetchSeq : Nat → FetchResult) : Except String ClientValue :=
  match fetchSeq 0 with
  | FetchResult.netError m => Except.error m
  | FetchResult.resolved r => processResponse r

/-! ## createApiUrl (src/frontend/src/services/apiUtils.js)

Strings are embedded as `List Char`; `startsWith` is `List.isPrefixOf`,
`slice(1)` drops the head. -/

/-- The string "http" tested by `endpoint.startsWith('http')`. -/
def httpPrefix : List Char := "http".toList

/-- `config.api.baseUrl` (src/frontend/src/config.js). -/
def apiBaseUrl : List Char := "https://data-agent-ww7e.onrender.com".toList

/-- The `endpoint.startsWith('/') ? endpoint.slice(1) : endpoint` step. -/
def stripLeadingSlash (endpoint : List Char) : List Char :=
  match endpoint with
  | '/' :: rest => rest
  | _ => endpoint

/-- `createApiUrl(endpoint)`. -/
def createApiUrl (endpoint : List Char) : List Char :=
  if httpPrefix.isPrefixOf endpoint then endpoint
  else apiBaseUrl ++ '/' :: stripLeadingSlash endpoint

/-! ## SessionService (src/frontend/src/services/sessionService.js)

`localStorage` is embedded as the three items the service touches.  The
stored expiry ISO string and its `new Date(...)` round trip are modelled by
storing the encoded instant directly; `new Date()` is the `now` argument,
and `new Date() > session.expiry` is the strict order on instants. -/

/-- The three localStorage items (token key, user key, 'session_expiry'). -/
structure SessionStorage where
  tokenItem : Option String
  userItem : Option String
  expiryItem : Option Nat
  deriving Repr, DecidableEq

/-- The session object `getSession` builds. -/
structure Session where
  token : String
  user : String
  expiry : Option Nat
  deriving Repr, DecidableEq

/-- `SessionService.clearSession()`: removes all three items. -/
def clearSession (_st : SessionStorage) : SessionStorage :=
  { tokenItem := none, userItem := none, expiryItem := none }

/-- `SessionService.getSession()`: returns the (possibly cleared) storage and
the session handed to the caller; `null` when token or user data is missing,
or when the stored expiry instant is strictly before `now` (in which case the
storage is cleared first). -/
def getSession (st : SessionStorage) (now : Nat) : SessionStorage × Option Session :=
  match st.tokenItem, st.userItem with
  | some token, some userData =>
      let session : Session := { token := token, user := userData, expiry := st.expiryItem }
      match st.expiryItem with
      | some e => if e < now then (clearSession st, none) else (st, some session)
      | none => (st, some session)
  | _, _ => (st, none)

/-- `SessionService.isAuthenticated()`: `!!this.getSession()`. -/
def isAuthenticated (st : SessionStorage) (now : Nat) : Bool :=
  (getSession st now).2.isSome

/-! ## PieChart (src/frontend/src/components/charts/PieChart.js)

Numeric chart values are embedded as `ℚ`.  The SVG arc geometry keeps the
angles as fractions of the full circle (`percentage / 100`); the
trigonometric projection of those angles to SVG point coordinates is
presentation only and is not part of the model. -/

/-- The fallback color `hsl(h, 70%, 60%)`. -/
def hslColor (h : Nat) : String :=
  "hsl(" ++ toString h ++ ", 70%, 60%)"

/-- A dataset as the pie chart reads it: the values and the optional
`backgroundColor` array indexed per segment. -/
structure PieDataset where
  data : List ℚ
  backgroundColor : Option (List String) := none
  deriving Repr, DecidableEq

/-- The `data` prop of the pie chart. -/
structure PieData where
  labels : List String
  datasets : List PieDataset
  deriving Repr, DecidableEq

/-- `dataset.backgroundColor?.[index] || hsl(index*40, 70%, 60%)`:
a missing array, a missing entry, or a falsy entry falls back to hsl. -/
def pieSegColor (bg : Option (List String)) (index : Nat) : String :=
  match bg with
  | some arr => jsOr (arr.getD index "") (hslColor (index * 40))
  | none => hslColor (index * 40)

/-- One entry of the `segments` array. -/
structure PieSegment where
  value : ℚ
  percentage : ℚ
  label : String
  color : String
  deriving Repr, DecidableEq

/-- `dataset.data.map((value, index) => ...)`, carrying the running index:
percentage is 0 when the total is 0, else `value / total * 100`; the label is
`labels[index]` (empty when absent). -/
def pieSegmentsFrom (labels : List String) (total : ℚ) (bg : Option (List String)) :
    Nat → List ℚ → List PieSegment
  | _, [] => []
  | i, v :: rest =>
      { value := v
        percentage := if total = 0 then 0 else v / total * 100
        label := labels.getD i ""
        color := pieSegColor bg i } :: pieSegmentsFrom labels total bg (i + 1) rest

/-- The `segments` array of the component, with
`total = dataset.data.reduce((sum, value) => sum + value, 0)`. -/
def pieSegments (labels : List String) (ds : PieDataset) : List PieSegment :=
  pieSegmentsFrom labels ds.data.sum ds.backgroundColor 0 ds.data

/-- An SVG pie slice, identified by its start/end angle (as fractions of the
full circle) and fill color. -/
structure PiePath where
  startTurn : ℚ
  endTurn : ℚ
  color : String
  deriving Repr, DecidableEq

/-- `createPieSegments()`: a segment of value 0 yields `null` and does not
advance the start angle; otherwise a path spanning `percentage / 100` of the
circle is emitted and the start angle advances. -/
def piePathsFrom : ℚ → List PieSegment → List (Option PiePath)
  | _, [] => []
  | start, s :: rest =>
      if s.value = 0 then none :: piePathsFrom start rest
      else
        some { startTurn := start, endTurn := start + s.percentage / 100, color := s.color } ::
          piePathsFrom (start + s.percentage / 100) rest

/-- Everything the component renders: the SVG paths and the legend entries
(both derived from the `segments` array). -/
structure PieRender where
  segments : List PieSegment
  paths : List (Option PiePath)
  deriving Repr, DecidableEq

/-- The `PieChart` component: `none` models the "No chart data available"
branch (no `datasets[0]`); otherwise the render is computed from the labels
and the first dataset. -/
def pieRender (d : PieData) : Option PieRender :=
  match d.datasets with
  | [] => none
  | ds0 :: _ =>
      some { segments := pieSegments d.labels ds0
             paths := piePathsFrom 0 (pieSegments d.labels ds0) }

/-! ## BarChart (src/frontend/src/components/charts/BarChart.js) -/

/-- A dataset as the bar chart reads it: `backgroundColor` is a single
color string here. -/
structure BarDataset where
  label : String
  data : List ℚ
  backgroundColor : Option String := none
  deriving Repr, DecidableEq

/-- The `data` prop of the bar chart. -/
structure BarData where
  labels : List String
  datasets : List BarDataset
  deriving Repr, DecidableEq

/-- `dataset.backgroundColor || hsl(datasetIndex*60, 70%, 60%)`. -/
def barColor (datasetIndex : Nat) (bg : Option String) : String :=
  jsOrOpt bg (hslColor (datasetIndex * 60))

/-- `Math.max(...datasets.flatMap(d => d.data))`; `none` models the
degenerate `-Infinity` of an empty spread. -/
def barMaxValue (d : BarData) : Option ℚ :=
  (d.datasets.flatMap (fun ds => ds.data)).max?

/-- One rendered bar: its value (`dataset.data[index] || 0`), its height
`value / maxValue * 100` percent (`none` in the degenerate no-data case),
its background color and its title. -/
structure BarCell where
  value : ℚ
  height : Option ℚ
  color : String
  title : String
  deriving Repr, DecidableEq

/-- The bars of one label column: `datasets.map((dataset, datasetIndex) =>
...)`, carrying the running dataset index. -/
def barCellsFrom (li : Nat) (label : String) (mv : Option ℚ) :
    Nat → List BarDataset → List BarCell
  | _, [] => []
  | di, ds :: rest =>
      { value := ds.data.getD li 0
        height := match mv with
          | some m => some (ds.data.getD li 0 / m * 100)
          | none => none
        color := barColor di ds.backgroundColor
        title := label ++ ": " ++ toString (ds.data.getD li 0) } ::
        barCellsFrom li label mv (di + 1) rest

/-- `labels.map((label, index) => ...)`: one column of bars per label. -/
def barRowsFrom (mv : Option ℚ) (datasets : List BarDataset) :
    Nat → List String → List (List BarCell)
  | _, [] => []
  | li, label :: rest =>
      barCellsFrom li label mv 0 datasets :: barRowsFrom mv datasets (li + 1) rest

/-- The rendered bar grid of the component. -/
def barRows (d : BarData) : List (List BarCell) :=
  barRowsFrom (barMaxValue d) d.datasets 0 d.labels

/-- The legend (`datasets.length > 1` only): dataset label with
`dataset.backgroundColor || hsl(index*60, 70%, 60%)`. -/
def barLegendFrom : Nat → List BarDataset → List (String × String)
  | _, [] => []
  | i, ds :: rest => (ds.label, barColor i ds.backgroundColor) :: barLegendFrom (i + 1) rest

/-- The legend of the component. -/
def barLegend (d : BarData) : List (String × String) :=
  if d.datasets.length > 1 then barLegendFrom 0 d.datasets else []

/-- The color every bar row realizes at each dataset position: a function of
the position and the declared `backgroundColor` alone. -/
def barColorsFrom : Nat → List (Option String) → List String
  | _, [] => []
  | i, bg :: rest => barColor i bg :: barColorsFrom (i + 1) rest

/-- The pie segment colors as a function of position and the declared
`backgroundColor` alone (one color per data entry). -/
def pieColorsFrom (bg : Option (List String)) : Nat → Nat → List String
  | _, 0 => []
  | i, Nat.succ n => pieSegColor bg i :: pieColorsFrom bg (i + 1) n

/-! ## Heap model for array aliasing

`getMessageHistory` returns `[...this.messageHistory]` — a fresh array.  To
state that mutating the returned array cannot touch the stored history, a
JavaScript array value is a reference (an index) into a heap of message
arrays. -/

/-- A heap of message arrays; a reference is an index into `arrays`. -/
structure Heap where
  arrays : List (List Message)
  deriving Repr, DecidableEq

/-- Dereference: the array a reference points to. -/
def Heap.read (h : Heap) (r : Nat) : List Message :=
  (h.arrays[r]?).getD []

/-- In-place mutation of the array behind a reference. -/
def Heap.write (h : Heap) (r : Nat) (a : List Message) : Heap :=
  { arrays := h.arrays.set r a }

/-- Allocation of a fresh array; returns the new heap and the new
reference. -/
def Heap.alloc (h : Heap) (a : List Message) : Heap × Nat :=
  ({ arrays := h.arrays ++ [a] }, h.arrays.length)

/-- A `ChatService` instance on the heap: its `messageHistory` field is a
reference to its own array. -/
structure ChatServiceObj where
  sessionId : String
  histRef : Nat
  deriving Repr, DecidableEq

/-- `getMessageHistory()` on the heap: `[...this.messageHistory]` allocates
a fresh array holding a copy of the current history and returns the new
reference. -/
def getMessageHistoryH (h : Heap) (svc : ChatServiceObj) : Heap × Nat :=
  h.alloc (h.read svc.histRef)

/-- The history effect of `sendMessage` on the heap: the sent turns are
pushed onto the service's own array. -/
def sendMessageH (h : Heap) (svc : ChatServiceObj) (query now : String)
    (outcome : ChatOutcome) : Heap :=
  h.write svc.histRef (h.read svc.histRef ++ sentTurns query now outcome)

/-! ## Correlation analysis

Modelled from the spec: the Pearson correlation matrix behind
`DataService.getCorrelationAnalysis` and the `/analyze/correlation` endpoint.
The analysis engine computing it is part of the backend, which is not among
the frontend sources; the spec describes it as "`correlation(DataStore,
columns) -> matrix`, Pearson coefficient, values in [-1,1], diagonal = 1,
symmetric".  A numeric column of length n is a function `Fin n → ℝ`. -/

/-- Modelled from the spec: the mean of a numeric column. -/
noncomputable def colMean {n : ℕ} (x : Fin n → ℝ) : ℝ :=
  (∑ i, x i) / n

/-- Modelled from the spec: the centered product sum Σ (xᵢ − x̄)(yᵢ − ȳ) of
two numeric columns (covariance and variance up to the common 1/(n-1)
factor, which cancels in the Pearson quotient). -/
noncomputable def corrSum {n : ℕ} (x y : Fin n → ℝ) : ℝ :=
  ∑ i, (x i - colMean x) * (y i - colMean y)

/-- Modelled from the spec: the Pearson coefficient
r(x, y) = Sxy / √(Sxx · Syy). -/
noncomputable def pearson {n : ℕ} (x y : Fin n → ℝ) : ℝ :=
  corrSum x y / Real.sqrt (corrSum x x * corrSum y y)

/-- Modelled from the spec: `correlate(columns)` — the matrix of pairwise
Pearson coefficients of the numeric columns. -/
noncomputable def correlate {k n : ℕ} (cols : Fin k → Fin n → ℝ) :
    Fin k → Fin k → ℝ :=
  fun i j => pearson (cols i) (cols j)

/-! ## Concrete inputs used by the witnesses -/

/-- An attempt sequence whose first attempt fails and whose second attempt
would succeed. -/
def seqFailThenOk : Nat → FetchResult := fun n =>
  if n = 0 then FetchResult.netError "timeout"
  else FetchResult.resolved
    { ok := true, isJson := true
      json := { message := none, detail := none, payload := "data" }, text := "" }

/-- A concrete stored session that expired at instant 5. -/
def expiredStore : SessionStorage :=
  { tokenItem := some "tok", userItem := some "alice", expiryItem := some 5 }

/-- Two bar inputs with the same declared backgroundColors but different
labels and data. -/
def barInputA : BarData :=
  { labels := ["a", "b"]
    datasets := [{ label := "s1", data := [1, 2], backgroundColor := some "red" },
                 { label := "s2", data := [3] }] }

/-- Second bar input for the color determinism witness. -/
def barInputB : BarData :=
  { labels := ["x"]
    datasets := [{ label := "t1", data := [9], backgroundColor := some "red" },
                 { label := "t2", data := [7, 8] }] }

/-- A pie dataset whose values sum to zero. -/
def pieZeroInput : PieDataset := { data := [0, 0] }

/-- A pie dataset with a positive total. -/
def piePosInput : PieDataset := { data := [4] }

/-- A concrete one-service heap for the fresh-copy witness. -/
def heapW : Heap :=
  { arrays := [[userMsg "hello" "t0"]] }

/-- The service owning array 0 of `heapW`. -/
def svcW : ChatServiceObj := { sessionId := "s1", histRef := 0 }

/-- Two concrete numeric columns with nonzero variance. -/
noncomputable def colsW : Fin 2 → Fin 2 → ℝ := ![![0, 1], ![0, 2]]

/-- Two concrete numeric columns of which the first is constant. -/
noncomputable def colsConst : Fin 2 → Fin 2 → ℝ := ![![1, 1], ![0, 1]]

end DataAgent

namespace DataAgent

/-- Claim C1: the conversation history is append-only — every `sendMessage`
call preserves all previously recorded turns unchanged and in order and only
appends new turns at the end, and `clearMessageHistory` resets it to empty. -/
theorem chat_history_append_only (s : ChatState) (query now : String)
    (outcome : ChatOutcome) :
    s.messageHistory <+: (sendMessage s query now outcome).1.messageHistory
    ∧ (sendMessage s query now outcome).1.messageHistory =
        s.messageHistory ++ sentTurns query now outcome
    ∧ (clearMessageHistory s).messageHistory = [] :=
  ⟨List.prefix_append _ _, rfl, rfl⟩

/-- Claim C2, counterexample: on a failing request the error is thrown across
the turn boundary — the promise `sendMessage` returns rejects with the very
error, so the failure is not only reported as a structured turn. -/
theorem sendMessage_error_rethrow_cex :
    (sendMessage { sessionId := "s1", messageHistory := [] } "q" "t1"
        (Except.error "boom")).2 = Except.error "boom" :=
  rfl

/-- Claim C2 (amended): on a failing request exactly one error turn is
appended after the user's turn and no other recorded turn is modified, and
the error is additionally rethrown to the caller. -/
theorem sendMessage_error_turn (s : ChatState) (query now e : String) :
    (sendMessage s query now (Except.error e)).1.messageHistory =
      s.messageHistory ++ [userMsg query now, errorMsg e now]
    ∧ (sendMessage s query now (Except.error e)).2 = Except.error e :=
  ⟨rfl, rfl⟩

/-- Claim C3, counterexample: the client performs no retry — with a first
attempt failing ("timeout") and a second attempt that would succeed, the call
surfaces the first failure instead of retrying. -/
theorem apiClientCall_no_retry_cex :
    apiClientCall seqFailThenOk = Except.error "timeout"
    ∧ (match seqFailThenOk 1 with
        | FetchResult.netError _ => Except.error "no"
        | FetchResult.resolved r => processResponse r) =
      Except.ok (ClientValue.json { message := none, detail := none, payload := "data" }) :=
  ⟨rfl, rfl⟩

/-- Claim C3 (amended): the request is attempted exactly once — the call's
result depends only on attempt 0 — and a failure is surfaced immediately as
that turn's terminal error; the conversation state stays valid: the history
gains the user turn plus one error turn, and the next `sendMessage` behaves
normally on it. -/
theorem apiClientCall_single_attempt (f g : Nat → FetchResult) (h : f 0 = g 0)
    (s : ChatState) (q now e : String) :
    apiClientCall f = apiClientCall g
    ∧ (sendMessage s q now (Except.error e)).1.messageHistory =
        s.messageHistory ++ [userMsg q now, errorMsg e now]
    ∧ ∀ q2 now2 out2,
        (sendMessage (sendMessage s q now (Except.error e)).1 q2 now2 out2).1.messageHistory =
          (s.messageHistory ++ [userMsg q now, errorMsg e now]) ++ sentTurns q2 now2 out2 := by
  refine ⟨?_, rfl, fun q2 now2 out2 => rfl⟩
  unfold apiClientCall
  rw [h]

/-- Witness for `apiClientCall_single_attempt` at a concrete attempt
sequence and chat state. -/
theorem apiClientCall_single_attempt_witness :
    (fun _ : Nat => FetchResult.netError "down") 0 =
        (fun _ : Nat => FetchResult.netError "down") 0
    ∧ (apiClientCall (fun _ => FetchResult.netError "down") =
          apiClientCall (fun _ => FetchResult.netError "down")
        ∧ (sendMessage { sessionId := "s1", messageHistory := [] } "q" "t1"
              (Except.error "down")).1.messageHistory =
            [] ++ [userMsg "q" "t1", errorMsg "down" "t1"]
        ∧ ∀ q2 now2 out2,
            (sendMessage (sendMessage { sessionId := "s1", messageHistory := [] } "q" "t1"
                (Except.error "down")).1 q2 now2 out2).1.messageHistory =
              ([] ++ [userMsg "q" "t1", errorMsg "down" "t1"]) ++ sentTurns q2 now2 out2) :=
  ⟨rfl, apiClientCall_single_attempt (fun _ => FetchResult.netError "down")
    (fun _ => FetchResult.netError "down") rfl
    { sessionId := "s1", messageHistory := [] } "q" "t1" "down"⟩

/-- Claim C4: a stored session whose expiry instant is in the past is never
handed to a caller — `getSession` returns `none` and clears all stored
session items, and `isAuthenticated` is `false`. -/
theorem expired_session_not_returned (st : SessionStorage) (now : Nat) (t u : String)
    (e : Nat) (htok : st.tokenItem = some t) (huser : st.userItem = some u)
    (hexp : st.expiryItem = some e) (hpast : e < now) :
    (getSession st now).2 = none
    ∧ (getSession st now).1.tokenItem = none
    ∧ (getSession st now).1.userItem = none
    ∧ (getSession st now).1.expiryItem = none
    ∧ isAuthenticated st now = false := by
  obtain ⟨tokI, userI, expI⟩ := st
  simp only at htok huser hexp
  subst htok; subst huser; subst hexp
  simp [getSession, isAuthenticated, clearSession, hpast]

/-- Witness for `expired_session_not_returned` at a concrete expired
storage, looked up at instant 17. -/
theorem expired_session_not_returned_witness :
    expiredStore.tokenItem = some "tok"
    ∧ (5 : Nat) < 17
    ∧ (getSession expiredStore 17).2 = none
    ∧ isAuthenticated expiredStore 17 = false := by
  refine ⟨rfl, by decide, ?_, ?_⟩
  · exact (expired_session_not_returned expiredStore 17 "tok" "alice" 5
      rfl rfl rfl (by decide)).1
  · exact (expired_session_not_returned expiredStore 17 "tok" "alice" 5
      rfl rfl rfl (by decide)).2.2.2.2

/-- Claim C9: `getMessageHistory` returns a fresh copy — the returned
reference is distinct from the stored one and carries the same turns, writing
any content through the returned reference leaves the stored history
unchanged, and a subsequent `sendMessage` still appends to the unmutated
history. -/
theorem getMessageHistory_fresh_copy (h : Heap) (svc : ChatServiceObj)
    (hvalid : svc.histRef < h.arrays.length) :
    (getMessageHistoryH h svc).2 ≠ svc.histRef
    ∧ (getMessageHistoryH h svc).1.read (getMessageHistoryH h svc).2 = h.read svc.histRef
    ∧ ∀ a : List Message,
        (((getMessageHistoryH h svc).1.write (getMessageHistoryH h svc).2 a).read
            svc.histRef = h.read svc.histRef)
        ∧ ∀ (query now : String) (outcome : ChatOutcome),
            (sendMessageH ((getMessageHistoryH h svc).1.write (getMessageHistoryH h svc).2 a)
                svc query now outcome).read svc.histRef =
              h.read svc.histRef ++ sentTurns query now outcome := by
  have hne : h.arrays.length ≠ svc.histRef := ne_of_gt hvalid
  refine ⟨hne, ?_, fun a => ⟨?_, fun query now outcome => ?_⟩⟩
  · simp [getMessageHistoryH, Heap.alloc, Heap.read, List.getElem?_concat_length]
  · simp [getMessageHistoryH, Heap.alloc, Heap.read, Heap.write,
      List.getElem?_set_ne hne, List.getElem?_append_left hvalid]
  · have hlen : svc.histRef < (h.arrays ++ [a]).length := by
      simp only [List.length_append]
      exact Nat.lt_of_lt_of_le hvalid (Nat.le_add_right _ _)
    simp [sendMessageH, getMessageHistoryH, Heap.alloc, Heap.read, Heap.write,
      List.getElem?_set_ne hne, List.getElem?_append_left hvalid,
      List.getElem?_set_self hlen]

/-- Witness for `getMessageHistory_fresh_copy` on a concrete heap: mutating
the copy to `[]` does not clear the stored history. -/
theorem getMessageHistory_fresh_copy_witness :
    svcW.histRef < heapW.arrays.length
    ∧ (getMessageHistoryH heapW svcW).2 ≠ svcW.histRef
    ∧ (((getMessageHistoryH heapW svcW).1.write (getMessageHistoryH heapW svcW).2 []).read
        svcW.histRef = heapW.read svcW.histRef) :=
  ⟨by decide,
    (getMessageHistory_fresh_copy heapW svcW (by decide)).1,
    ((getMessageHistory_fresh_copy heapW svcW (by decide)).2.2 []).1⟩

/-- Claim C10: `createApiUrl` is idempotent; an endpoint already starting
with "http" is returned unchanged, and otherwise the result is the base URL
joined to the endpoint with exactly one slash, a leading slash on the
endpoint being removed. -/
theorem createApiUrl_idempotent (endpoint : List Char) :
    createApiUrl (createApiUrl endpoint) = createApiUrl endpoint
    ∧ (httpPrefix.isPrefixOf endpoint = true → createApiUrl endpoint = endpoint)
    ∧ (httpPrefix.isPrefixOf endpoint = false →
        createApiUrl endpoint = apiBaseUrl ++ '/' :: stripLeadingSlash endpoint) := by
  have hbase : ∀ l : List Char, httpPrefix.isPrefixOf (apiBaseUrl ++ l) = true := by
    intro l
    rw [List.isPrefixOf_iff_prefix]
    exact (List.isPrefixOf_iff_prefix.mp
      (by decide : httpPrefix.isPrefixOf apiBaseUrl = true)).trans
      (List.prefix_append _ _)
  by_cases h : httpPrefix.isPrefixOf endpoint
  · refine ⟨?_, fun _ => ?_, fun hf => ?_⟩
    · simp [createApiUrl, h]
    · simp [createApiUrl, h]
    · rw [h] at hf; cases hf
  · have h1 : createApiUrl endpoint = apiBaseUrl ++ '/' :: stripLeadingSlash endpoint := by
      simp [createApiUrl, h]
    refine ⟨?_, fun ht => absurd ht (by simp [h]), fun _ => h1⟩
    rw [h1]
    simp [createApiUrl, hbase]

theorem barCellsFrom_colors (li : Nat) (label : String) (mv : Option ℚ)
    (datasets : List BarDataset) (di : Nat) :
    (barCellsFrom li label mv di datasets).map (fun c => c.color) =
      barColorsFrom di (datasets.map (fun ds => ds.backgroundColor)) := by
  induction datasets generalizing di with
  | nil => rfl
  | cons ds rest ih => simp [barCellsFrom, barColorsFrom, ih]

theorem barRowsFrom_colors (mv : Option ℚ) (datasets : List BarDataset)
    (labels : List String) (li : Nat) :
    ∀ row ∈ barRowsFrom mv datasets li labels,
      row.map (fun c => c.color) =
        barColorsFrom 0 (datasets.map (fun ds => ds.backgroundColor)) := by
  induction labels generalizing li with
  | nil => intro row h; cases h
  | cons label rest ih =>
      intro row h
      simp only [barRowsFrom, List.mem_cons] at h
      rcases h with rfl | h
      · exact barCellsFrom_colors li label mv datasets 0
      · exact ih (li + 1) row h

theorem pieSegmentsFrom_colors (labels : List String) (total : ℚ)
    (bg : Option (List String)) (data : List ℚ) (i : Nat) :
    (pieSegmentsFrom labels total bg i data).map (fun s => s.color) =
      pieColorsFrom bg i data.length := by
  induction data generalizing i with
  | nil => rfl
  | cons v rest ih => simp [pieSegmentsFrom, pieColorsFrom, ih]

/-- Claim C6: chart series colors are deterministic — in every rendered bar
row the color at dataset position i is `barColor i backgroundColor`, a
function of the position and the declared backgroundColor only; two renders
whose datasets declare the same backgroundColors realize identical colors
whatever their labels and data values; likewise for pie segment colors. -/
theorem chart_colors_deterministic (d1 d2 : BarData)
    (hbg : d1.datasets.map (fun ds => ds.backgroundColor) =
      d2.datasets.map (fun ds => ds.backgroundColor)) :
    (∀ row ∈ barRows d1, row.map (fun c => c.color) =
        barColorsFrom 0 (d1.datasets.map (fun ds => ds.backgroundColor)))
    ∧ (∀ r1 ∈ barRows d1, ∀ r2 ∈ barRows d2,
        r1.map (fun c => c.color) = r2.map (fun c => c.color))
    ∧ (∀ (labels1 labels2 : List String) (p1 p2 : PieDataset),
        p1.backgroundColor = p2.backgroundColor → p1.data.length = p2.data.length →
        (pieSegments labels1 p1).map (fun s => s.color) =
          (pieSegments labels2 p2).map (fun s => s.color)) := by
  refine ⟨fun row h => barRowsFrom_colors _ _ _ _ row h, ?_, ?_⟩
  · intro r1 h1 r2 h2
    rw [barRowsFrom_colors _ _ _ _ r1 h1, barRowsFrom_colors _ _ _ _ r2 h2, hbg]
  · intro labels1 labels2 p1 p2 hc hl
    rw [pieSegments, pieSegments, pieSegmentsFrom_colors, pieSegmentsFrom_colors, hc, hl]

/-- Witness for `chart_colors_deterministic` at two concrete bar inputs
agreeing only on the declared backgroundColors. -/
theorem chart_colors_deterministic_witness :
    barInputA.datasets.map (fun ds => ds.backgroundColor) =
      barInputB.datasets.map (fun ds => ds.backgroundColor)
    ∧ (∀ r1 ∈ barRows barInputA, ∀ r2 ∈ barRows barInputB,
        r1.map (fun c => c.color) = r2.map (fun c => c.color)) :=
  ⟨rfl, (chart_colors_deterministic barInputA barInputB rfl).2.1⟩

/-- Claim C7: the pie chart renders solely from the labels and the first
dataset — replacing the datasets beyond the first changes nothing, and the
output equals the render of the first dataset alone. -/
theorem pieChart_first_dataset_only (labels : List String) (ds0 : PieDataset)
    (rest1 rest2 : List PieDataset) :
    pieRender { labels := labels, datasets := ds0 :: rest1 } =
      pieRender { labels := labels, datasets := ds0 :: rest2 }
    ∧ pieRender { labels := labels, datasets := ds0 :: rest1 } =
        some { segments := pieSegments labels ds0
               paths := piePathsFrom 0 (pieSegments labels ds0) } :=
  ⟨rfl, rfl⟩

theorem pieSegmentsFrom_total_zero (labels : List String) (bg : Option (List String))
    (data : List ℚ) (i : Nat) :
    ∀ s ∈ pieSegmentsFrom labels 0 bg i data, s.percentage = 0 := by
  induction data generalizing i with
  | nil => intro s h; cases h
  | cons v rest ih =>
      intro s h
      simp only [pieSegmentsFrom, List.mem_cons] at h
      rcases h with rfl | h
      · simp
      · exact ih (i + 1) s h

theorem piePathsFrom_zero_value (segs : List PieSegment) (start : ℚ) :
    List.Forall₂ (fun s p => s.value = 0 → p = none) segs (piePathsFrom start segs) := by
  induction segs generalizing start with
  | nil => exact List.Forall₂.nil
  | cons s rest ih =>
      by_cases h : s.value = 0
      · rw [piePathsFrom, if_pos h]
        exact List.Forall₂.cons (fun _ => rfl) (ih start)
      · rw [piePathsFrom, if_neg h]
        exact List.Forall₂.cons (fun hz => absurd hz h) (ih _)

theorem pieSegmentsFrom_percentage_sum (labels : List String) (bg : Option (List String))
    (total : ℚ) (h : total ≠ 0) (data : List ℚ) (i : Nat) :
    ((pieSegmentsFrom labels total bg i data).map (fun s => s.percentage)).sum =
      data.sum / total * 100 := by
  induction data generalizing i with
  | nil => simp [pieSegmentsFrom]
  | cons v rest ih =>
      simp only [pieSegmentsFrom, List.map_cons, List.sum_cons, ih, if_neg h,
        List.sum_cons]
      rw [add_div, add_mul]

/-- Claim C8: the pie chart never divides by zero — when the first dataset
sums to 0 every segment percentage is exactly 0, a zero-valued segment
produces no drawn path, and when the total is positive the percentages sum
to 100. -/
theorem pieChart_percentages_safe (labels : List String) (ds : PieDataset) :
    (ds.data.sum = 0 → ∀ s ∈ pieSegments labels ds, s.percentage = 0)
    ∧ List.Forall₂ (fun s p => s.value = 0 → p = none)
        (pieSegments labels ds) (piePathsFrom 0 (pieSegments labels ds))
    ∧ (0 < ds.data.sum →
        ((pieSegments labels ds).map (fun s => s.percentage)).sum = 100) := by
  refine ⟨fun h0 => ?_, piePathsFrom_zero_value _ 0, fun hpos => ?_⟩
  · rw [pieSegments, h0]
    exact pieSegmentsFrom_total_zero labels ds.backgroundColor ds.data 0
  · rw [pieSegments, pieSegmentsFrom_percentage_sum labels ds.backgroundColor
      ds.data.sum (ne_of_gt hpos) ds.data 0, div_self (ne_of_gt hpos), one_mul]

/-- Witness for `pieChart_percentages_safe` at concrete zero-total and
positive-total datasets. -/
theorem pieChart_percentages_safe_witness :
    pieZeroInput.data.sum = 0
    ∧ (∀ s ∈ pieSegments [] pieZeroInput, s.percentage = 0)
    ∧ (0 : ℚ) < piePosInput.data.sum
    ∧ ((pieSegments [] piePosInput).map (fun s => s.percentage)).sum = 100 :=
  ⟨by simp [pieZeroInput], (pieChart_percentages_safe [] pieZeroInput).1 (by simp [pieZeroInput]),
    by simp [piePosInput],
    (pieChart_percentages_safe [] piePosInput).2.2 (by simp [piePosInput])⟩

/-- Witness for `createApiUrl_idempotent` on concrete endpoints, one for
each branch. -/
theorem createApiUrl_idempotent_witness :
    (httpPrefix.isPrefixOf "http://x.org".toList = true →
      createApiUrl "http://x.org".toList = "http://x.org".toList)
    ∧ (httpPrefix.isPrefixOf "/sessions".toList = false →
      createApiUrl "/sessions".toList =
        apiBaseUrl ++ '/' :: stripLeadingSlash "/sessions".toList)
    ∧ createApiUrl (createApiUrl "/sessions".toList) = createApiUrl "/sessions".toList :=
  ⟨(createApiUrl_idempotent "http://x.org".toList).2.1,
    (createApiUrl_idempotent "/sessions".toList).2.2,
    (createApiUrl_idempotent "/sessions".toList).1⟩

theorem corrSum_comm {n : ℕ} (x y : Fin n → ℝ) : corrSum x y = corrSum y x :=
  Finset.sum_congr rfl fun _ _ => mul_comm _ _

theorem corrSum_self_nonneg {n : ℕ} (x : Fin n → ℝ) : 0 ≤ corrSum x x :=
  Finset.sum_nonneg fun _ _ => mul_self_nonneg _

theorem corrSum_sq_le {n : ℕ} (x y : Fin n → ℝ) :
    corrSum x y ^ 2 ≤ corrSum x x * corrSum y y := by
  have h := Finset.sum_mul_sq_le_sq_mul_sq Finset.univ
    (fun i => x i - colMean x) (fun i => y i - colMean y)
  simpa [corrSum, pow_two] using h

theorem pearson_abs_le {n : ℕ} (x y : Fin n → ℝ) : |pearson x y| ≤ 1 := by
  have hD0 : 0 ≤ Real.sqrt (corrSum x x * corrSum y y) := Real.sqrt_nonneg _
  have habs : |corrSum x y| ≤ Real.sqrt (corrSum x x * corrSum y y) := by
    rw [← Real.sqrt_sq_eq_abs]
    exact Real.sqrt_le_sqrt (corrSum_sq_le x y)
  rcases eq_or_lt_of_le hD0 with hD | hD
  · have hS : corrSum x y = 0 := by
      have h0 : |corrSum x y| ≤ 0 := hD ▸ habs
      exact abs_eq_zero.mp (le_antisymm h0 (abs_nonneg _))
    rw [pearson, hS, zero_div, abs_zero]
    exact zero_le_one
  · rw [pearson, abs_div, abs_of_pos hD, div_le_one hD]
    exact habs

theorem pearson_self {n : ℕ} (x : Fin n → ℝ) (hx : corrSum x x ≠ 0) :
    pearson x x = 1 := by
  rw [pearson, Real.sqrt_mul_self (corrSum_self_nonneg x), div_self hx]

/-- Claim C5 (amended): for every input the Pearson correlation matrix is
symmetric and all its entries lie in [-1, 1]; a diagonal entry is 1 provided
the corresponding column is not constant (otherwise that diagonal quotient
is the undefined 0/0 rather than 1). -/
theorem correlate_matrix_props {k n : ℕ} (cols : Fin k → Fin n → ℝ) :
    (∀ i j, correlate cols i j = correlate cols j i)
    ∧ (∀ i j, -1 ≤ correlate cols i j ∧ correlate cols i j ≤ 1)
    ∧ (∀ i, corrSum (cols i) (cols i) ≠ 0 → correlate cols i i = 1) := by
  refine ⟨fun i j => ?_, fun i j => abs_le.mp (pearson_abs_le (cols i) (cols j)),
    fun i hi => pearson_self (cols i) hi⟩
  rw [correlate, correlate, pearson, pearson, corrSum_comm (cols i) (cols j),
    mul_comm (corrSum (cols i) (cols i)) (corrSum (cols j) (cols j))]

/-- Claim C5, counterexample: on a constant numeric column the diagonal
entry of the Pearson matrix is the undefined quotient 0/0 (0 in this model,
NaN in floating point), not 1 — so "diagonal = 1" does not hold for every
input with ≥2 numeric columns. -/
theorem correlate_const_column_cex :
    correlate colsConst 0 0 = 0 ∧ ((0 : ℝ) ≠ 1) := by
  constructor
  · have hc : corrSum (colsConst 0) (colsConst 0) = 0 := by
      norm_num [colsConst, corrSum, colMean, Fin.sum_univ_two]
    rw [correlate, pearson, hc, zero_div]
  · norm_num

/-- Witness for `correlate_matrix_props` at two concrete non-constant
columns, discharging the per-column diagonal proviso. -/
theorem correlate_matrix_props_witness :
    corrSum (colsW 0) (colsW 0) ≠ 0
    ∧ corrSum (colsW 1) (colsW 1) ≠ 0
    ∧ correlate colsW 0 0 = 1
    ∧ correlate colsW 1 1 = 1
    ∧ (∀ i j, -1 ≤ correlate colsW i j ∧ correlate colsW i j ≤ 1) := by
  have h0 : corrSum (colsW 0) (colsW 0) ≠ 0 := by
    norm_num [colsW, corrSum, colMean, Fin.sum_univ_two]
  have h1 : corrSum (colsW 1) (colsW 1) ≠ 0 := by
    norm_num [colsW, corrSum, colMean, Fin.sum_univ_two]
  exact ⟨h0, h1, (correlate_matrix_props colsW).2.2 0 h0,
    (correlate_matrix_props colsW).2.2 1 h1, (correlate_matrix_props colsW).2.1⟩

end DataAgent
